import Mathlib

/-!
Verification development for the Equilibrium on-device RAG assistant.

The repository is a React Native application whose core is a retrieval
engine (embedding, linear-scan cosine-similarity search over a SQLite
document table, bounded context assembly) and a streaming generation
orchestrator (`ChatScreen` in `App.tsx`).  This file shallowly embeds the
relevant JavaScript/TypeScript functions as Lean definitions and proves or
refutes the specification claims about them.

Conventions of the embedding:
- JavaScript numbers used as similarity scores, throughputs and vector
  components are modelled as rationals (`ℚ`); the claims under scrutiny
  depend only on comparisons and exact algebraic identities, not on
  floating-point rounding.
- JavaScript strings are modelled as Lean `String`s; `String.prototype.trim`
  is modelled by `jsTrim` below (drop leading and trailing whitespace).
- Fallible steps (JSON.parse, backend calls) are modelled with `Option` /
  `Except` or with explicit outcome values supplied by the environment.
-/

namespace Equilibrium

/-- Whitespace predicate used to model `String.prototype.trim` (space, tab,
newline, carriage return, vertical tab, form feed). -/
def jsWhitespace (c : Char) : Bool :=
  c = ' ' || c = '\t' || c = '\n' || c = '\r' || c = '\x0b' || c = '\x0c'

/-- Drop leading and trailing whitespace from a character list. -/
def jsTrimList (s : List Char) : List Char :=
  ((s.dropWhile jsWhitespace).reverse.dropWhile jsWhitespace).reverse

/-- Model of JavaScript `s.trim()`. -/
def jsTrim (s : String) : String :=
  String.mk (jsTrimList s.data)



/-! ## Similarity Index (src/src/services/ragService.js)

`performSimilaritySearch` scans every row of the `documents` table, parses
the stored embedding (`JSON.parse(row.embedding)`, which can throw and is
caught per row), computes cosine similarity (which throws on a dimension
mismatch, likewise caught per row), keeps rows whose similarity is at least
`threshold`, sorts by similarity descending (JavaScript sorts are stable),
and truncates to `topK`.

The numeric cosine kernel (`dot / (sqrt(na) * sqrt(nb) || 1)`) involves real
square roots; it is abstracted here as a parameter `cosSim`, since the
claims under verification depend only on the returned score, never on the
kernel's numeric value.  A row whose stored blob fails to parse is modelled
with `embeddingBlob = none`. -/

structure DocRow where
  id : Nat
  chunkText : String
  embeddingBlob : Option (List ℚ)
deriving DecidableEq, Repr

structure SearchResult where
  id : Nat
  content : String
  similarity : ℚ
  embedding : Option (List ℚ)
deriving DecidableEq, Repr

/-- Per-row body of the scan loop of `performSimilaritySearch`: skip the row
when JSON parsing throws or when the dimensions mismatch (the thrown error
is caught and the loop continues); otherwise keep the row when its
similarity reaches the threshold. -/
def scoreRow (cosSim : List ℚ → List ℚ → ℚ) (query : List ℚ) (threshold : ℚ)
    (includeEmbeddings : Bool) (row : DocRow) : Option SearchResult :=
  match row.embeddingBlob with
  | none => none
  | some docVec =>
    if docVec.length = query.length then
      if threshold ≤ cosSim query docVec then
        some { id := row.id, content := row.chunkText,
               similarity := cosSim query docVec,
               embedding := if includeEmbeddings then some docVec else none }
      else none
    else none

/-- The `sims` array accumulated by the scan loop, in original scan order. -/
def scanRows (cosSim : List ℚ → List ℚ → ℚ) (query : List ℚ) (threshold : ℚ)
    (includeEmbeddings : Bool) (rows : List DocRow) : List SearchResult :=
  rows.filterMap (scoreRow cosSim query threshold includeEmbeddings)

/-- Comparator of `sims.sort((a, b) => b.similarity - a.similarity)`:
descending similarity; the ECMAScript sort is stable. -/
def simDescLE (a b : SearchResult) : Bool :=
  b.similarity ≤ a.similarity

/-- Model of `performSimilaritySearch`: scan, filter by threshold, stable
sort by similarity descending, truncate to `topK`. -/
def performSimilaritySearch (cosSim : List ℚ → List ℚ → ℚ) (query : List ℚ)
    (topK : Nat) (threshold : ℚ) (includeEmbeddings : Bool)
    (rows : List DocRow) : List SearchResult :=
  ((scanRows cosSim query threshold includeEmbeddings rows).mergeSort simDescLE).take topK

/-- State of the singleton `RAGService` relevant to searching: the
initialisation flag and the rows of the `documents` table. -/
structure RAGState where
  isInitialized : Bool
  rows : List DocRow
deriving DecidableEq, Repr

/-- Argument passed for the `embedding` parameter of `searchSimilar`: either
not an array at all (`Array.isArray` fails) or an array of numbers. -/
inductive SearchInput where
  | notAnArray
  | arr (embedding : List ℚ)
deriving DecidableEq, Repr

/-- Guard of `searchSimilar`: the embedding must be a non-empty array. -/
def invalidEmbedding : SearchInput → Bool
  | .notAnArray => true
  | .arr e => e.length = 0

/-- Model of `searchSimilar`: guard on initialisation and on the embedding
argument, then delegate to `performSimilaritySearch`.  The service state is
returned alongside the result; the search never mutates it. -/
def searchSimilar (cosSim : List ℚ → List ℚ → ℚ) (st : RAGState)
    (input : SearchInput) (topK : Nat) (threshold : ℚ)
    (includeEmbeddings : Bool) : RAGState × Except String (List SearchResult) :=
  if st.isInitialized = false then
    (st, Except.error "RAG Service not initialised. Call initialize() first.")
  else
    match input with
    | .notAnArray => (st, Except.error "Invalid embedding: must be non-empty array")
    | .arr embedding =>
      if embedding.length = 0 then
        (st, Except.error "Invalid embedding: must be non-empty array")
      else
        (st, Except.ok (performSimilaritySearch cosSim embedding topK threshold
          includeEmbeddings st.rows))

/-- Specification of the returned result sequence, relative to the scan-order
list `kept` of threshold-passing candidates: every result passes the
threshold, results are non-increasing in similarity, at most `topK` results
are returned, and for each similarity value the results carrying it are an
initial segment of the threshold-passing candidates carrying it in original
scan order (stable tie-breaking, possibly cut short by the `topK`
truncation). -/
def SearchResultsSpec (kept out : List SearchResult) (topK : Nat) (threshold : ℚ) : Prop :=
  (∀ r ∈ out, threshold ≤ r.similarity) ∧
  List.Pairwise (fun a b => b.similarity ≤ a.similarity) out ∧
  out.length ≤ topK ∧
  (∀ s : ℚ, ∃ n, out.filter (fun r => r.similarity = s) =
    (kept.filter (fun r => r.similarity = s)).take n)

/-! ## Context Assembler (the `retrieval` method of the RAG service variants)

`retrieval(query, options)` first calls `searchSimilar` and then iterates
the ranked results, appending `doc.content + "\n\n"` while the accumulated
length stays within `maxContextLength`, breaking at the first chunk that
would not fit.  It returns the trimmed concatenation, the accumulated
(pre-trim) length, the provenance list and the pre-truncation result count.
The functions below model the assembly portion, taking the ranked results
as input, as the claims do. -/

structure RetrievalDoc where
  id : Nat
  content : String
  similarity : ℚ
  collectionName : Option String
deriving DecidableEq, Repr

structure UsedDoc where
  id : Nat
  similarity : ℚ
  collectionName : Option String
deriving DecidableEq, Repr

structure RetrievalOutcome where
  context : String
  contextLength : Nat
  documentsUsed : List UsedDoc
  totalDocumentsFound : Nat
deriving DecidableEq, Repr

/-- Accumulator of the assembly loop: the `context`, `contextLength` and
`usedDocs` variables of `retrieval`. -/
structure AsmState where
  context : String
  contextLength : Nat
  usedDocs : List UsedDoc
deriving DecidableEq, Repr

/-- The assembly loop of `retrieval`: append whole chunks (content plus the
two-newline delimiter) while they fit in `maxContextLength`; `break` at the
first chunk that would overflow. -/
def assembleLoop (maxContextLength : Nat) :
    List RetrievalDoc → AsmState → AsmState
  | [], acc => acc
  | doc :: docs, acc =>
    let docText := doc.content ++ "\n\n"
    if acc.contextLength + docText.length ≤ maxContextLength then
      assembleLoop maxContextLength docs
        { context := acc.context ++ docText,
          contextLength := acc.contextLength + docText.length,
          usedDocs := acc.usedDocs ++ [⟨doc.id, doc.similarity, doc.collectionName⟩] }
    else acc

/-- Model of the result-assembly portion of `retrieval`: run the loop from
the empty accumulator and package the outcome, trimming the context but
returning the accumulated pre-trim `contextLength`, exactly as the source
does. -/
def retrievalAssemble (similarDocs : List RetrievalDoc)
    (maxContextLength : Nat) : RetrievalOutcome :=
  let fin := assembleLoop maxContextLength similarDocs ⟨"", 0, []⟩
  { context := jsTrim fin.context,
    contextLength := fin.contextLength,
    documentsUsed := fin.usedDocs,
    totalDocumentsFound := similarDocs.length }

/-! ## Embedder (the `embedText` variants of the ONNX-based RAG service)

Both variants end by L2-normalising the pooled vector:

- variant at lines 117–119: `norm = Math.hypot(...vector)` and
  `vector.map(v => v / (norm || 1))` — a zero norm divides by 1, leaving the
  zero vector unchanged;
- variant at lines 225–229: `norm = Math.sqrt(Σ v²)` and
  `meanVec.map(v => (norm > 0 ? v / norm : 0))` — a zero norm maps every
  component to 0.

The square root is transcendental; the normalisation step is modelled by
passing the norm as an argument constrained (in the theorem) to be the
exact non-negative square root of the sum of squares. -/

/-- Sum of squares of a vector: the square of its L2 norm. -/
def normSq (v : List ℚ) : ℚ :=
  (v.map fun x => x * x).sum

/-- Final step of the first `embedText` variant:
`vector.map(v => v / (norm || 1))`. -/
def l2NormalizeHypot (v : List ℚ) (norm : ℚ) : List ℚ :=
  let d := if norm = 0 then 1 else norm
  v.map fun x => x / d

/-- Final step of the second `embedText` variant:
`meanVec.map(v => (norm > 0 ? v / norm : 0))`. -/
def l2NormalizeMean (v : List ℚ) (norm : ℚ) : List ℚ :=
  v.map fun x => if 0 < norm then x / norm else 0

/-! ## Generation Orchestrator (`ChatScreen` in `App.tsx`)

`handleSendMessage` guards on the llama context, the RAG readiness flag and
a non-blank input; then appends the user turn and an empty assistant
placeholder, clears the input box and sets `isGenerating`; then embeds the
input, searches similar documents, builds the augmented prompt from the
prior conversation (which does not yet contain the new user turn) plus one
augmented user turn, and streams the completion.  Each token callback
appends the token to a local accumulator and rewrites the content of the
last transcript entry with the trimmed accumulator, provided that entry's
role is `assistant`.  On completion success the measured throughput is
appended; on completion failure the last transcript entry is dropped.  In
both cases `isGenerating` is finally cleared.

The asynchronous environment of one `handleSendMessage` call (backends and
their outcomes for this call) is modelled by `ChatEnv`; the token stream of
a completion is the list of fragments the backend delivered before
resolving or rejecting. -/

inductive Role where
  | system
  | user
  | assistant
deriving DecidableEq, Repr

structure Message where
  role : Role
  content : String
deriving DecidableEq, Repr

/-- Component state of `ChatScreen` touched by the orchestrator. -/
structure ChatState where
  conversation : List Message
  isGenerating : Bool
  userInput : String
  tokensPerSecond : List ℚ
deriving DecidableEq, Repr

/-- Outcome of the `llamaContext.completion` call: the token fragments
delivered to the callback, and either the final result (with its
`predicted_per_second` throughput) or a rejection. -/
inductive CompletionOutcome where
  | success (tokens : List String) (predictedPerSecond : ℚ)
  | failure (tokens : List String)
deriving DecidableEq, Repr

/-- Environment of one `handleSendMessage` call: backend availability and
the outcomes of the embedding, search and completion calls made during it. -/
structure ChatEnv where
  llamaReady : Bool
  ragReady : Bool
  embed : Except String (List ℚ)
  search : Except String (List SearchResult)
  completion : CompletionOutcome
deriving Repr

/-- The fixed instructional template `PROMPT_TEMPLATE` of `App.tsx`. -/
def PROMPT_TEMPLATE : String :=
  "Please play the role of a psychiatrist. Your task is to conduct a " ++
  "professional diagnosis conversation with me based on the DSM-5 criteria, but using your own " ++
  "language. Your questions should cover at least the following aspects: emotion, sleep, " ++
  "weight and appetite, loss of interest, energy, social function, self-harm or suicide, " ++
  "history. You are free to choose the order of questions, but you must collect complete " ++
  "information on all aspects in the end. Please only ask one question at a time. You need to ask " ++
  "in-depth questions, such as the duration, causes and specific manifestations of some symptoms." ++
  "Using these instructions and taking into account previous messages, respond to the new patient\x27s message:"

/-- The `ragTexts` block: retrieved documents numbered from 1, each trimmed,
joined by blank lines. -/
def ragTexts (results : List SearchResult) : String :=
  String.intercalate "\n\n"
    (results.enum.map fun p =>
      "Document " ++ toString (p.1 + 1) ++ ":\n" ++ jsTrim p.2.content)

/-- The `augmentedUserContent` sent to the backend in place of the raw user
text. -/
def augmentedUserContent (results : List SearchResult) (finalInput : String) : String :=
  "Here are some relevant documents to consider before answering:\n\n" ++
    ragTexts results ++ "\n\n---\n\n" ++ PROMPT_TEMPLATE ++ "\n" ++ finalInput

/-- Body of the token callback's `setConversation` update: rewrite the
content of the last entry with the trimmed accumulator, only when that
entry's role is `assistant`; otherwise (defensively) leave the transcript
unchanged. -/
def updateLast (conv : List Message) (acc : String) : List Message :=
  match conv.getLast? with
  | some m =>
    if m.role = Role.assistant then
      conv.dropLast ++ [{ m with content := jsTrim acc }]
    else conv
  | none => conv

/-- One token callback: extend the accumulator (`currentAssistantMessage +=
token`) and rewrite the last transcript entry. -/
def tokenStep (p : List Message × String) (tok : String) : List Message × String :=
  let acc := p.2 ++ tok
  (updateLast p.1 acc, acc)

/-- Apply a whole stream of token callbacks to a transcript, starting from
an empty accumulator. -/
def applyTokens (conv : List Message) (tokens : List String) : List Message :=
  (tokens.foldl tokenStep (conv, "")).1

/-- Content of the streamed assistant turn after all callbacks: the initial
content when no token arrived, otherwise the trimmed concatenation of the
fragments received so far. -/
def streamContent (c acc : String) : List String → String
  | [] => c
  | t :: ts => streamContent (jsTrim (acc ++ t)) (acc ++ t) ts

/-- Result of one `handleSendMessage` call: the final component state, and
the message list passed to `llamaContext.completion` when that call was
reached (`none` when the pipeline aborted before it). -/
structure SendOutcome where
  state : ChatState
  sentToBackend : Option (List Message)
deriving Repr

/-- Model of `handleSendMessage input`.  Mirrors the source control flow:
readiness guards, blank-input guard, optimistic transcript update, the
embedding step, the similarity search step, then the streamed completion
with its success and failure continuations. -/
def handleSendMessage (env : ChatEnv) (st : ChatState) (input : Option String) :
    SendOutcome :=
  if env.llamaReady = false then ⟨st, none⟩
  else if env.ragReady = false then ⟨st, none⟩
  else
    let finalInput := input.getD st.userInput
    if jsTrim finalInput = "" then ⟨st, none⟩
    else
      let newConversation := st.conversation ++
        [⟨Role.user, finalInput⟩, ⟨Role.assistant, ""⟩]
      let st1 : ChatState :=
        { st with conversation := newConversation, userInput := "", isGenerating := true }
      match env.embed with
      | Except.error _ => ⟨{ st1 with isGenerating := false }, none⟩
      | Except.ok _ =>
        match env.search with
        | Except.error _ => ⟨{ st1 with isGenerating := false }, none⟩
        | Except.ok ragResults =>
          let messagesForLlama := st.conversation ++
            [⟨Role.user, augmentedUserContent ragResults finalInput⟩]
          match env.completion with
          | CompletionOutcome.success tokens pps =>
            let st2 := { st1 with conversation := applyTokens st1.conversation tokens }
            ⟨{ st2 with
                tokensPerSecond := st2.tokensPerSecond ++ [pps]
                isGenerating := false }, some messagesForLlama⟩
          | CompletionOutcome.failure tokens =>
            let st2 := { st1 with conversation := applyTokens st1.conversation tokens }
            ⟨{ st2 with
                conversation := st2.conversation.dropLast
                isGenerating := false }, some messagesForLlama⟩

/-- The fixed marker `stopGeneration` appends to the in-progress assistant
turn. -/
def stopMarker : String := "\n\n*Generation stopped by user*"

/-- The `setConversation` update of `stopGeneration`: append the marker to
the last entry when it is an assistant turn. -/
def appendStopMarker (conv : List Message) : List Message :=
  match conv.getLast? with
  | some m =>
    if m.role = Role.assistant then
      conv.dropLast ++ [{ m with content := m.content ++ stopMarker }]
    else conv
  | none => conv

/-- Model of `stopGeneration`.  The backend cancel call is awaited first
inside the `try`; when it throws (`cancelOk = false`), the `catch` only
logs, so neither `isGenerating` nor the transcript is updated.  When it
succeeds, `isGenerating` is cleared and the marker appended. -/
def stopGeneration (st : ChatState) (cancelOk : Bool) : ChatState :=
  if cancelOk then
    { st with
        isGenerating := false
        conversation := appendStopMarker st.conversation }
  else st


/-! ## Helper lemmas -/

theorem jsTrimList_length_le (s : List Char) : (jsTrimList s).length ≤ s.length := by
  unfold jsTrimList
  rw [List.length_reverse]
  calc ((s.dropWhile jsWhitespace).reverse.dropWhile jsWhitespace).length
      ≤ (s.dropWhile jsWhitespace).reverse.length :=
        (List.dropWhile_sublist _).length_le
    _ = (s.dropWhile jsWhitespace).length := List.length_reverse _
    _ ≤ s.length := (List.dropWhile_sublist _).length_le

theorem jsTrim_length_le (s : String) : (jsTrim s).length ≤ s.length :=
  jsTrimList_length_le s.data

theorem assembleLoop_context_length (m : Nat) :
    ∀ (docs : List RetrievalDoc) (acc : AsmState),
      acc.context.length = acc.contextLength →
      (assembleLoop m docs acc).context.length = (assembleLoop m docs acc).contextLength
  | [], acc, h => h
  | doc :: docs, acc, h => by
    simp only [assembleLoop]
    split
    · exact assembleLoop_context_length m docs _ (by simp [h])
    · exact h

theorem assembleLoop_length_le (m : Nat) :
    ∀ (docs : List RetrievalDoc) (acc : AsmState),
      acc.contextLength ≤ m →
      (assembleLoop m docs acc).contextLength ≤ m
  | [], acc, h => h
  | doc :: docs, acc, h => by
    simp only [assembleLoop]
    split
    · next hc => exact assembleLoop_length_le m docs _ hc
    · exact h

theorem assembleLoop_used_le (m : Nat) :
    ∀ (docs : List RetrievalDoc) (acc : AsmState),
      (assembleLoop m docs acc).usedDocs.length ≤ acc.usedDocs.length + docs.length
  | [], acc => by simp [assembleLoop]
  | doc :: docs, acc => by
    simp only [assembleLoop]
    split
    · refine le_trans (assembleLoop_used_le m docs _) ?_
      simp only [List.length_append, List.length_cons, List.length_nil]
      omega
    · simp only [List.length_cons]
      omega

theorem normSq_nonneg (v : List ℚ) : 0 ≤ normSq v := by
  induction v with
  | nil => simp [normSq]
  | cons x xs ih =>
    have hx : 0 ≤ x * x := mul_self_nonneg x
    simpa [normSq] using add_nonneg hx (by simpa [normSq] using ih)

theorem normSq_eq_zero_iff (v : List ℚ) : normSq v = 0 ↔ ∀ x ∈ v, x = 0 := by
  induction v with
  | nil => simp [normSq]
  | cons x xs ih =>
    have hx : 0 ≤ x * x := mul_self_nonneg x
    have hxs : 0 ≤ normSq xs := normSq_nonneg xs
    constructor
    · intro h y hy
      have hsplit : x * x + normSq xs = 0 := by simpa [normSq] using h
      have hx0 : x * x = 0 := by nlinarith
      have hxs0 : normSq xs = 0 := by nlinarith
      rcases List.mem_cons.mp hy with rfl | hy'
      · exact mul_self_eq_zero.mp hx0
      · exact (ih.mp hxs0) y hy'
    · intro h
      have hx0 : x = 0 := h x (List.mem_cons_self x xs)
      have hxs0 : normSq xs = 0 := ih.mpr fun y hy => h y (List.mem_cons_of_mem x hy)
      simp only [normSq, List.map_cons, List.sum_cons] at hxs0 ⊢
      rw [hx0, hxs0]
      norm_num

theorem normSq_map_div (v : List ℚ) (c : ℚ) (hc : c ≠ 0) :
    normSq (v.map fun x => x / c) = normSq v / (c * c) := by
  induction v with
  | nil => simp [normSq]
  | cons x xs ih =>
    simp only [List.map_cons, normSq, List.map_map, List.sum_cons] at ih ⊢
    rw [ih]
    field_simp


theorem scoreRow_similarity (cosSim : List ℚ → List ℚ → ℚ) (query : List ℚ)
    (threshold : ℚ) (incl : Bool) (row : DocRow) (r : SearchResult)
    (h : scoreRow cosSim query threshold incl row = some r) :
    threshold ≤ r.similarity := by
  rcases hb : row.embeddingBlob with _ | docVec
  · simp [scoreRow, hb] at h
  · simp only [scoreRow, hb] at h
    split at h
    · split at h
      · next hth =>
        cases h
        exact hth
      · cases h
    · cases h

theorem mem_scanRows_similarity (cosSim : List ℚ → List ℚ → ℚ) (query : List ℚ)
    (threshold : ℚ) (incl : Bool) (rows : List DocRow) (r : SearchResult)
    (h : r ∈ scanRows cosSim query threshold incl rows) :
    threshold ≤ r.similarity := by
  obtain ⟨row, _, hrow⟩ := List.mem_filterMap.mp h
  exact scoreRow_similarity cosSim query threshold incl row r hrow

theorem simDescLE_trans (a b c : SearchResult)
    (hab : simDescLE a b) (hbc : simDescLE b c) : simDescLE a c := by
  simp only [simDescLE, decide_eq_true_eq] at *
  exact le_trans hbc hab

theorem simDescLE_total (a b : SearchResult) : simDescLE a b || simDescLE b a := by
  simp only [simDescLE, Bool.or_eq_true, decide_eq_true_eq]
  exact le_total _ _

theorem mergeSort_filter_simEq (l : List SearchResult) (s : ℚ) :
    (l.mergeSort simDescLE).filter (fun r => r.similarity = s) =
      l.filter (fun r => r.similarity = s) := by
  have hpair : (l.filter (fun r => r.similarity = s)).Pairwise
      (fun a b => simDescLE a b = true) := by
    apply List.pairwise_of_forall_mem_list
    intro a ha b hb
    have ha' : a.similarity = s := by simpa using (List.of_mem_filter ha)
    have hb' : b.similarity = s := by simpa using (List.of_mem_filter hb)
    simp [simDescLE, ha', hb']
  have hsub : List.Sublist (l.filter (fun r => r.similarity = s)) (l.mergeSort simDescLE) :=
    List.sublist_mergeSort simDescLE_trans simDescLE_total hpair (List.filter_sublist l)
  have hperm : List.Perm ((l.mergeSort simDescLE).filter (fun r => r.similarity = s))
      (l.filter (fun r => r.similarity = s)) :=
    (List.mergeSort_perm l simDescLE).filter _
  have hidem : (l.filter (fun r => r.similarity = s)).filter (fun r => r.similarity = s) =
      l.filter (fun r => r.similarity = s) := by
    rw [List.filter_filter]
    apply List.filter_congr
    intro x _
    simp [Bool.and_self]
  have hsub2 : List.Sublist (l.filter (fun r => r.similarity = s))
      ((l.mergeSort simDescLE).filter (fun r => r.similarity = s)) := by
    have h := hsub.filter (fun r => r.similarity = s)
    rwa [hidem] at h
  exact (hsub2.eq_of_length hperm.length_eq.symm).symm

theorem filter_take_aux {α : Type} (p : α → Bool) (l : List α) (k : Nat) :
    ∃ n, (l.take k).filter p = (l.filter p).take n := by
  have h : l.filter p = (l.take k).filter p ++ (l.drop k).filter p := by
    rw [← List.filter_append, List.take_append_drop]
  refine ⟨((l.take k).filter p).length, ?_⟩
  rw [h]
  exact (List.take_left' rfl).symm

/-- Claim C1 theorem: for every query embedding, positive `topK` and
threshold, `performSimilaritySearch` returns only results whose similarity
reaches the threshold, sorted by similarity non-increasing with ties kept
in original scan order, and at most `topK` of them. -/
theorem similarity_search_spec (cosSim : List ℚ → List ℚ → ℚ) (query : List ℚ)
    (topK : Nat) (threshold : ℚ) (incl : Bool) (rows : List DocRow)
    (htopK : 0 < topK) :
    SearchResultsSpec (scanRows cosSim query threshold incl rows)
      (performSimilaritySearch cosSim query topK threshold incl rows) topK threshold := by
  have _ := htopK
  have hout : performSimilaritySearch cosSim query topK threshold incl rows =
      ((scanRows cosSim query threshold incl rows).mergeSort simDescLE).take topK := rfl
  refine ⟨?_, ?_, ?_, ?_⟩
  · intro r hr
    rw [hout] at hr
    have hr1 : r ∈ (scanRows cosSim query threshold incl rows).mergeSort simDescLE :=
      List.mem_of_mem_take hr
    have hr2 : r ∈ scanRows cosSim query threshold incl rows :=
      (List.mergeSort_perm _ simDescLE).mem_iff.mp hr1
    exact mem_scanRows_similarity cosSim query threshold incl rows r hr2
  · rw [hout]
    have hsorted : ((scanRows cosSim query threshold incl rows).mergeSort simDescLE).Pairwise
        (fun a b => simDescLE a b = true) :=
      List.sorted_mergeSort simDescLE_trans simDescLE_total _
    have htake := List.Pairwise.sublist (List.take_sublist topK _) hsorted
    exact htake.imp (by intro a b h; simpa [simDescLE] using h)
  · rw [hout]
    exact List.length_take_le topK _
  · intro s
    rw [hout, ← mergeSort_filter_simEq (scanRows cosSim query threshold incl rows) s]
    exact filter_take_aux _ _ topK

/-! ## Claim C6: bounds of the assembled retrieval outcome -/

/-- Claim C6 theorem: for every ordered result sequence and positive
`maxContextLength`, the assembled outcome has a context no longer than
`maxContextLength`, uses at most as many documents as it was given, and
reports the full input count in `totalDocumentsFound`. -/
theorem context_assembly_bounds (docs : List RetrievalDoc) (m : Nat) (hm : 0 < m) :
    (retrievalAssemble docs m).context.length ≤ m ∧
    (retrievalAssemble docs m).documentsUsed.length ≤ docs.length ∧
    (retrievalAssemble docs m).totalDocumentsFound = docs.length := by
  have _ := hm
  refine ⟨?_, ?_, rfl⟩
  · have h1 := assembleLoop_context_length m docs ⟨"", 0, []⟩ rfl
    have h2 := assembleLoop_length_le m docs ⟨"", 0, []⟩ (Nat.zero_le m)
    calc (retrievalAssemble docs m).context.length
        = (jsTrim (assembleLoop m docs ⟨"", 0, []⟩).context).length := rfl
      _ ≤ (assembleLoop m docs ⟨"", 0, []⟩).context.length := jsTrim_length_le _
      _ = (assembleLoop m docs ⟨"", 0, []⟩).contextLength := h1
      _ ≤ m := h2
  · simpa using assembleLoop_used_le m docs ⟨"", 0, []⟩

theorem context_assembly_bounds_witness :
    0 < 2000 ∧
    ((retrievalAssemble [⟨1, "sleep issues", (9 : ℚ)/10, none⟩] 2000).context.length ≤ 2000 ∧
     (retrievalAssemble [⟨1, "sleep issues", (9 : ℚ)/10, none⟩] 2000).documentsUsed.length ≤
       [(⟨1, "sleep issues", (9 : ℚ)/10, none⟩ : RetrievalDoc)].length ∧
     (retrievalAssemble [⟨1, "sleep issues", (9 : ℚ)/10, none⟩] 2000).totalDocumentsFound =
       [(⟨1, "sleep issues", (9 : ℚ)/10, none⟩ : RetrievalDoc)].length) :=
  ⟨by decide, context_assembly_bounds _ 2000 (by decide)⟩

/-! ## Claim C7: `contextLength` versus the trimmed context -/

/-- Claim C7 counterexample: with one document of content `"A"` and budget
2000, the returned `contextLength` is 3 (the pre-trim running total) while
the returned `context` is the trimmed string `"A"` of length 1, so
`contextLength` does not equal the character length of `context`. -/
theorem contextLength_mismatch_example :
    (retrievalAssemble [⟨1, "A", 1, none⟩] 2000).contextLength = 3 ∧
    (retrievalAssemble [⟨1, "A", 1, none⟩] 2000).context.length = 1 ∧
    (retrievalAssemble [⟨1, "A", 1, none⟩] 2000).contextLength ≠
      (retrievalAssemble [⟨1, "A", 1, none⟩] 2000).context.length := by
  refine ⟨by decide, by decide, by decide⟩

/-- Claim C7 amended theorem: `contextLength` is the length of the
accumulated pre-trim context, of which the returned `context` is the
trimmed version; hence the returned context is at most `contextLength`
characters long, but not necessarily exactly that long. -/
theorem contextLength_pre_trim (docs : List RetrievalDoc) (m : Nat) :
    ∃ raw : String, (retrievalAssemble docs m).context = jsTrim raw ∧
      (retrievalAssemble docs m).contextLength = raw.length ∧
      (retrievalAssemble docs m).context.length ≤ (retrievalAssemble docs m).contextLength := by
  refine ⟨(assembleLoop m docs ⟨"", 0, []⟩).context, rfl,
    (assembleLoop_context_length m docs ⟨"", 0, []⟩ rfl).symm, ?_⟩
  calc (retrievalAssemble docs m).context.length
      = (jsTrim (assembleLoop m docs ⟨"", 0, []⟩).context).length := rfl
    _ ≤ (assembleLoop m docs ⟨"", 0, []⟩).context.length := jsTrim_length_le _
    _ = (retrievalAssemble docs m).contextLength :=
        assembleLoop_context_length m docs ⟨"", 0, []⟩ rfl

/-! ## Claim C8: L2 normalisation of embeddings -/

/-- Claim C8 theorem: for any pooled vector and its exact non-negative L2
norm, both normalisation variants produce either a vector of L2 norm 1
(stated via the sum of squares being 1) or the all-zero vector in the
degenerate zero-norm case; the first variant leaves the (necessarily
all-zero) vector unchanged there, the second maps it to zeros. -/
theorem embedder_norm_one_or_zero (v : List ℚ) (norm : ℚ)
    (hnn : 0 ≤ norm) (hsq : norm * norm = normSq v) :
    (normSq (l2NormalizeHypot v norm) = 1 ∨
      (l2NormalizeHypot v norm = v ∧ ∀ x ∈ v, x = 0)) ∧
    (normSq (l2NormalizeMean v norm) = 1 ∨
      l2NormalizeMean v norm = List.replicate v.length 0) := by
  by_cases h0 : norm = 0
  · have hz : normSq v = 0 := by rw [← hsq, h0]; ring
    have hv : ∀ x ∈ v, x = 0 := (normSq_eq_zero_iff v).mp hz
    constructor
    · right
      refine ⟨?_, hv⟩
      simp [l2NormalizeHypot, h0]
    · right
      simp [l2NormalizeMean, h0, List.map_const']
  · have hne : norm * norm ≠ 0 := mul_ne_zero h0 h0
    constructor
    · left
      have hrw : l2NormalizeHypot v norm = v.map fun x => x / norm := by
        simp [l2NormalizeHypot, h0]
      rw [hrw, normSq_map_div v norm h0, ← hsq]
      exact div_self hne
    · left
      have hpos : 0 < norm := lt_of_le_of_ne hnn (Ne.symm h0)
      have hrw : l2NormalizeMean v norm = v.map fun x => x / norm := by
        unfold l2NormalizeMean
        apply List.map_congr_left
        intro x _
        rw [if_pos hpos]
      rw [hrw, normSq_map_div v norm h0, ← hsq]
      exact div_self hne

theorem embedder_norm_one_or_zero_witness :
    (0 : ℚ) ≤ 5 ∧ (5 : ℚ) * 5 = normSq [3, 4] ∧
    ((normSq (l2NormalizeHypot [3, 4] 5) = 1 ∨
       (l2NormalizeHypot [3, 4] 5 = [3, 4] ∧ ∀ x ∈ ([3, 4] : List ℚ), x = 0)) ∧
     (normSq (l2NormalizeMean [3, 4] 5) = 1 ∨
       l2NormalizeMean [3, 4] 5 = List.replicate ([3, 4] : List ℚ).length 0)) :=
  ⟨by norm_num, by norm_num [normSq], embedder_norm_one_or_zero [3, 4] 5 (by norm_num)
    (by norm_num [normSq])⟩

/-! ## Claim C10: guards of `searchSimilar` -/

/-- Claim C10 theorem: a `searchSimilar` call on an uninitialised service or
with an embedding that is not a non-empty array fails with an error, leaves
the service state unchanged, and does so independently of the stored
document rows (no document is scanned). -/
theorem searchSimilar_guard (cosSim : List ℚ → List ℚ → ℚ) (st : RAGState)
    (input : SearchInput) (topK : Nat) (threshold : ℚ) (incl : Bool)
    (h : st.isInitialized = false ∨ invalidEmbedding input = true) :
    (∃ msg, (searchSimilar cosSim st input topK threshold incl).2 = Except.error msg) ∧
    (searchSimilar cosSim st input topK threshold incl).1 = st ∧
    (∀ rows' : List DocRow,
      (searchSimilar cosSim { st with rows := rows' } input topK threshold incl).2 =
        (searchSimilar cosSim st input topK threshold incl).2) := by
  rcases h with h | h
  · simp [searchSimilar, h]
  · cases hini : st.isInitialized
    · simp [searchSimilar, hini]
    · cases input with
      | notAnArray =>
        simp [searchSimilar, hini]
      | arr e =>
        have he : e.length = 0 := by simpa [invalidEmbedding] using h
        simp [searchSimilar, hini, he]

theorem searchSimilar_guard_witness :
    ((⟨false, []⟩ : RAGState).isInitialized = false ∨
      invalidEmbedding (SearchInput.arr [1]) = true) ∧
    ((∃ msg, (searchSimilar (fun _ _ => 0) ⟨false, []⟩ (SearchInput.arr [1]) 5 (7/10)
        false).2 = Except.error msg) ∧
     (searchSimilar (fun _ _ => 0) ⟨false, []⟩ (SearchInput.arr [1]) 5 (7/10) false).1 =
       (⟨false, []⟩ : RAGState) ∧
     (∀ rows' : List DocRow,
       (searchSimilar (fun _ _ => 0) { (⟨false, []⟩ : RAGState) with rows := rows' }
         (SearchInput.arr [1]) 5 (7/10) false).2 =
       (searchSimilar (fun _ _ => 0) ⟨false, []⟩ (SearchInput.arr [1]) 5 (7/10) false).2)) :=
  ⟨Or.inl rfl, searchSimilar_guard (fun _ _ => 0) ⟨false, []⟩ (SearchInput.arr [1]) 5 (7/10)
    false (Or.inl rfl)⟩

theorem similarity_search_spec_witness :
    0 < 2 ∧
    SearchResultsSpec
      (scanRows (fun _ _ => 1) [1] (1/2) false
        [⟨1, "sleep issues", some [1]⟩, ⟨2, "unrelated", some [1]⟩])
      (performSimilaritySearch (fun _ _ => 1) [1] 2 (1/2) false
        [⟨1, "sleep issues", some [1]⟩, ⟨2, "unrelated", some [1]⟩]) 2 (1/2) :=
  ⟨by decide, similarity_search_spec (fun _ _ => 1) [1] 2 (1/2) false
    [⟨1, "sleep issues", some [1]⟩, ⟨2, "unrelated", some [1]⟩] (by decide)⟩

/-! ## Orchestrator helper lemmas -/

theorem updateLast_concat (conv : List Message) (m : Message) (acc : String) :
    updateLast (conv ++ [m]) acc =
      if m.role = Role.assistant then conv ++ [{ m with content := jsTrim acc }]
      else conv ++ [m] := by
  unfold updateLast
  rw [List.getLast?_concat]
  simp [List.dropLast_concat]

theorem foldl_tokenStep_concat :
    ∀ (tokens : List String) (conv : List Message) (c acc : String),
      (tokens.foldl tokenStep (conv ++ [⟨Role.assistant, c⟩], acc)).1 =
        conv ++ [⟨Role.assistant, streamContent c acc tokens⟩]
  | [], _, _, _ => rfl
  | t :: ts, conv, c, acc => by
    have hstep : tokenStep (conv ++ [⟨Role.assistant, c⟩], acc) t =
        (conv ++ [⟨Role.assistant, jsTrim (acc ++ t)⟩], acc ++ t) := by
      simp [tokenStep, updateLast_concat]
    rw [List.foldl_cons, hstep]
    exact foldl_tokenStep_concat ts conv (jsTrim (acc ++ t)) (acc ++ t)

theorem applyTokens_concat (conv : List Message) (c : String) (tokens : List String) :
    applyTokens (conv ++ [⟨Role.assistant, c⟩]) tokens =
      conv ++ [⟨Role.assistant, streamContent c "" tokens⟩] :=
  foldl_tokenStep_concat tokens conv c ""

theorem handleSendMessage_embed_error (env : ChatEnv) (st : ChatState)
    (input : Option String) (msg : String)
    (hl : env.llamaReady = true) (hr : env.ragReady = true)
    (hne : jsTrim (input.getD st.userInput) ≠ "")
    (he : env.embed = Except.error msg) :
    handleSendMessage env st input =
      ⟨{ conversation := st.conversation ++
           [⟨Role.user, input.getD st.userInput⟩, ⟨Role.assistant, ""⟩],
         isGenerating := false, userInput := "",
         tokensPerSecond := st.tokensPerSecond }, none⟩ := by
  unfold handleSendMessage
  rw [hl, hr, he]
  simp [hne]

theorem handleSendMessage_search_error (env : ChatEnv) (st : ChatState)
    (input : Option String) (e : List ℚ) (msg : String)
    (hl : env.llamaReady = true) (hr : env.ragReady = true)
    (hne : jsTrim (input.getD st.userInput) ≠ "")
    (he : env.embed = Except.ok e) (hs : env.search = Except.error msg) :
    handleSendMessage env st input =
      ⟨{ conversation := st.conversation ++
           [⟨Role.user, input.getD st.userInput⟩, ⟨Role.assistant, ""⟩],
         isGenerating := false, userInput := "",
         tokensPerSecond := st.tokensPerSecond }, none⟩ := by
  unfold handleSendMessage
  rw [hl, hr, he, hs]
  simp [hne]

theorem handleSendMessage_success (env : ChatEnv) (st : ChatState)
    (input : Option String) (e : List ℚ) (r : List SearchResult)
    (tokens : List String) (pps : ℚ)
    (hl : env.llamaReady = true) (hr : env.ragReady = true)
    (hne : jsTrim (input.getD st.userInput) ≠ "")
    (he : env.embed = Except.ok e) (hs : env.search = Except.ok r)
    (hc : env.completion = CompletionOutcome.success tokens pps) :
    handleSendMessage env st input =
      ⟨{ conversation := st.conversation ++
           [⟨Role.user, input.getD st.userInput⟩,
            ⟨Role.assistant, streamContent "" "" tokens⟩],
         isGenerating := false, userInput := "",
         tokensPerSecond := st.tokensPerSecond ++ [pps] },
       some (st.conversation ++
         [⟨Role.user, augmentedUserContent r (input.getD st.userInput)⟩])⟩ := by
  unfold handleSendMessage
  rw [hl, hr, he, hs, hc]
  have h1 : st.conversation ++
      [(⟨Role.user, input.getD st.userInput⟩ : Message), ⟨Role.assistant, ""⟩] =
      (st.conversation ++ [(⟨Role.user, input.getD st.userInput⟩ : Message)]) ++
        [(⟨Role.assistant, ""⟩ : Message)] := by
    simp
  simp only [hne, if_neg, h1, applyTokens_concat]
  simp [List.append_assoc]

theorem handleSendMessage_failure (env : ChatEnv) (st : ChatState)
    (input : Option String) (e : List ℚ) (r : List SearchResult)
    (tokens : List String)
    (hl : env.llamaReady = true) (hr : env.ragReady = true)
    (hne : jsTrim (input.getD st.userInput) ≠ "")
    (he : env.embed = Except.ok e) (hs : env.search = Except.ok r)
    (hc : env.completion = CompletionOutcome.failure tokens) :
    handleSendMessage env st input =
      ⟨{ conversation := st.conversation ++ [⟨Role.user, input.getD st.userInput⟩],
         isGenerating := false, userInput := "",
         tokensPerSecond := st.tokensPerSecond },
       some (st.conversation ++
         [⟨Role.user, augmentedUserContent r (input.getD st.userInput)⟩])⟩ := by
  unfold handleSendMessage
  rw [hl, hr, he, hs, hc]
  have h1 : st.conversation ++
      [(⟨Role.user, input.getD st.userInput⟩ : Message), ⟨Role.assistant, ""⟩] =
      (st.conversation ++ [(⟨Role.user, input.getD st.userInput⟩ : Message)]) ++
        [(⟨Role.assistant, ""⟩ : Message)] := by
    simp
  simp only [hne, if_neg, h1, applyTokens_concat]
  simp [List.dropLast_concat]

/-! ## Claim C2: backend failure handling -/

/-- Claim C2 counterexample: a completion failure after the partial token
`"Hel"` was streamed.  The claim says the partial assistant content is
preserved; in fact the catch handler drops the last transcript entry
unconditionally, so the transcript ends with the user turn only and no turn
carries the partial content. -/
theorem backend_failure_discards_tokens_example :
    (handleSendMessage
        ⟨true, true, Except.ok [1], Except.ok [], CompletionOutcome.failure ["Hel"]⟩
        ⟨[], false, "", []⟩ (some "hi")).state.conversation =
      [⟨Role.user, "hi"⟩] ∧
    ∀ m ∈ (handleSendMessage
        ⟨true, true, Except.ok [1], Except.ok [], CompletionOutcome.failure ["Hel"]⟩
        ⟨[], false, "", []⟩ (some "hi")).state.conversation,
      m.content ≠ "Hel" := by
  decide

/-- Claim C2 amended theorem: on completion failure the orchestrator always
removes the last transcript entry — the placeholder assistant turn together
with any partially streamed content — restoring the prior transcript plus
the user turn, and sets `isGenerating` to false. -/
theorem backend_failure_rollback (env : ChatEnv) (st : ChatState)
    (input : Option String) (e : List ℚ) (r : List SearchResult)
    (tokens : List String)
    (hl : env.llamaReady = true) (hr : env.ragReady = true)
    (hne : jsTrim (input.getD st.userInput) ≠ "")
    (he : env.embed = Except.ok e) (hs : env.search = Except.ok r)
    (hc : env.completion = CompletionOutcome.failure tokens) :
    (handleSendMessage env st input).state.conversation =
      st.conversation ++ [⟨Role.user, input.getD st.userInput⟩] ∧
    (handleSendMessage env st input).state.isGenerating = false := by
  rw [handleSendMessage_failure env st input e r tokens hl hr hne he hs hc]
  exact ⟨rfl, rfl⟩

theorem backend_failure_rollback_witness :
    ((⟨true, true, Except.ok [1], Except.ok [],
        CompletionOutcome.failure ["Hel"]⟩ : ChatEnv).llamaReady = true ∧
      jsTrim ((some "hi").getD (⟨[], false, "", []⟩ : ChatState).userInput) ≠ "") ∧
    ((handleSendMessage
        ⟨true, true, Except.ok [1], Except.ok [], CompletionOutcome.failure ["Hel"]⟩
        ⟨[], false, "", []⟩ (some "hi")).state.conversation =
      (⟨[], false, "", []⟩ : ChatState).conversation ++
        [⟨Role.user, (some "hi").getD (⟨[], false, "", []⟩ : ChatState).userInput⟩] ∧
     (handleSendMessage
        ⟨true, true, Except.ok [1], Except.ok [], CompletionOutcome.failure ["Hel"]⟩
        ⟨[], false, "", []⟩ (some "hi")).state.isGenerating = false) :=
  ⟨⟨rfl, by decide⟩,
    backend_failure_rollback
      ⟨true, true, Except.ok [1], Except.ok [], CompletionOutcome.failure ["Hel"]⟩
      ⟨[], false, "", []⟩ (some "hi") [1] [] ["Hel"]
      rfl rfl (by decide) rfl rfl rfl⟩

/-! ## Claim C3: cancellation -/

/-- Claim C3 counterexample: when the backend cancel call raises
(`cancelOk = false`), `stopGeneration` leaves the whole state unchanged —
`isGenerating` stays true and no stop marker is appended — contradicting
the claim that the marker is appended and `isGenerating` cleared even when
the cancel call errors. -/
theorem cancel_error_keeps_generating_example :
    stopGeneration ⟨[⟨Role.assistant, "par"⟩], true, "", []⟩ false =
      (⟨[⟨Role.assistant, "par"⟩], true, "", []⟩ : ChatState) ∧
    (stopGeneration ⟨[⟨Role.assistant, "par"⟩], true, "", []⟩ false).isGenerating = true := by
  decide

/-- Claim C3 amended theorem: when the backend cancel call succeeds, the
stop marker is appended exactly once to the in-progress assistant turn and
`isGenerating` is cleared; when the cancel call raises, the error is only
logged and the local state — including `isGenerating` — is left unchanged. -/
theorem cancel_behavior (st : ChatState) (conv : List Message) (m : Message)
    (hconv : st.conversation = conv ++ [m]) (hrole : m.role = Role.assistant) :
    stopGeneration st false = st ∧
    (stopGeneration st true).isGenerating = false ∧
    (stopGeneration st true).conversation =
      conv ++ [{ m with content := m.content ++ stopMarker }] := by
  refine ⟨rfl, rfl, ?_⟩
  simp [stopGeneration, appendStopMarker, hconv, List.getLast?_concat, hrole,
    List.dropLast_concat]

theorem cancel_behavior_witness :
    ((⟨[⟨Role.assistant, "par"⟩], true, "", []⟩ : ChatState).conversation =
        [] ++ [(⟨Role.assistant, "par"⟩ : Message)] ∧
      (⟨Role.assistant, "par"⟩ : Message).role = Role.assistant) ∧
    (stopGeneration ⟨[⟨Role.assistant, "par"⟩], true, "", []⟩ false =
        (⟨[⟨Role.assistant, "par"⟩], true, "", []⟩ : ChatState) ∧
      (stopGeneration ⟨[⟨Role.assistant, "par"⟩], true, "", []⟩ true).isGenerating = false ∧
      (stopGeneration ⟨[⟨Role.assistant, "par"⟩], true, "", []⟩ true).conversation =
        [] ++ [{ (⟨Role.assistant, "par"⟩ : Message) with
                  content := (⟨Role.assistant, "par"⟩ : Message).content ++ stopMarker }]) :=
  ⟨⟨by decide, rfl⟩,
    cancel_behavior ⟨[⟨Role.assistant, "par"⟩], true, "", []⟩ []
      ⟨Role.assistant, "par"⟩ (by decide) rfl⟩

/-! ## Claim C4: retrieval failure aborts before the backend call -/

/-- Claim C4 counterexample: an embedding failure aborts before the backend
call (`sentToBackend = none`), but the placeholder assistant turn is not
removed — the transcript still ends with the empty assistant entry,
contradicting the claimed rollback. -/
theorem retrieval_failure_keeps_placeholder_example :
    (handleSendMessage
        ⟨true, true, Except.error "boom", Except.ok [], CompletionOutcome.success [] 0⟩
        ⟨[], false, "", []⟩ (some "hi")).sentToBackend = none ∧
    (handleSendMessage
        ⟨true, true, Except.error "boom", Except.ok [], CompletionOutcome.success [] 0⟩
        ⟨[], false, "", []⟩ (some "hi")).state.conversation =
      [⟨Role.user, "hi"⟩, ⟨Role.assistant, ""⟩] ∧
    (handleSendMessage
        ⟨true, true, Except.error "boom", Except.ok [], CompletionOutcome.success [] 0⟩
        ⟨[], false, "", []⟩ (some "hi")).state.conversation ≠
      [⟨Role.user, "hi"⟩] := by
  decide

/-- Claim C4 amended theorem: when the embedding or the retrieval step
fails, the generation aborts before any backend completion call and
`isGenerating` is cleared, but the placeholder assistant turn (and the new
user turn) remain in the transcript — no rollback happens. -/
theorem retrieval_failure_abort (env : ChatEnv) (st : ChatState)
    (input : Option String)
    (hl : env.llamaReady = true) (hr : env.ragReady = true)
    (hne : jsTrim (input.getD st.userInput) ≠ "")
    (hfail : (∃ msg, env.embed = Except.error msg) ∨
      ((∃ e, env.embed = Except.ok e) ∧ ∃ msg, env.search = Except.error msg)) :
    (handleSendMessage env st input).sentToBackend = none ∧
    (handleSendMessage env st input).state.conversation =
      st.conversation ++ [⟨Role.user, input.getD st.userInput⟩, ⟨Role.assistant, ""⟩] ∧
    (handleSendMessage env st input).state.isGenerating = false := by
  rcases hfail with ⟨msg, he⟩ | ⟨⟨e, he⟩, msg, hs⟩
  · rw [handleSendMessage_embed_error env st input msg hl hr hne he]
    exact ⟨rfl, rfl, rfl⟩
  · rw [handleSendMessage_search_error env st input e msg hl hr hne he hs]
    exact ⟨rfl, rfl, rfl⟩

theorem retrieval_failure_abort_witness :
    (jsTrim ((some "hi").getD (⟨[], false, "", []⟩ : ChatState).userInput) ≠ "" ∧
      (⟨true, true, Except.error "boom", Except.ok [],
        CompletionOutcome.success [] 0⟩ : ChatEnv).embed = Except.error "boom") ∧
    ((handleSendMessage
        ⟨true, true, Except.error "boom", Except.ok [], CompletionOutcome.success [] 0⟩
        ⟨[], false, "", []⟩ (some "hi")).sentToBackend = none ∧
     (handleSendMessage
        ⟨true, true, Except.error "boom", Except.ok [], CompletionOutcome.success [] 0⟩
        ⟨[], false, "", []⟩ (some "hi")).state.conversation =
      (⟨[], false, "", []⟩ : ChatState).conversation ++
        [⟨Role.user, (some "hi").getD (⟨[], false, "", []⟩ : ChatState).userInput⟩,
         ⟨Role.assistant, ""⟩] ∧
     (handleSendMessage
        ⟨true, true, Except.error "boom", Except.ok [], CompletionOutcome.success [] 0⟩
        ⟨[], false, "", []⟩ (some "hi")).state.isGenerating = false) :=
  ⟨⟨by decide, rfl⟩,
    retrieval_failure_abort
      ⟨true, true, Except.error "boom", Except.ok [], CompletionOutcome.success [] 0⟩
      ⟨[], false, "", []⟩ (some "hi") rfl rfl (by decide) (Or.inl ⟨"boom", rfl⟩)⟩

/-! ## Claim C5: re-entrancy while generating -/

/-- Claim C5 counterexample: in a state with `isGenerating = true` and ready
backends, invoking `handleSendMessage` is not rejected — the transcript is
changed (the user turn and placeholder are appended), contradicting the
claim that the submission is rejected with the transcript unchanged. -/
theorem reentrant_submit_changes_transcript_example :
    (⟨[], true, "", []⟩ : ChatState).isGenerating = true ∧
    (handleSendMessage
        ⟨true, true, Except.ok [1], Except.ok [], CompletionOutcome.success [] 0⟩
        ⟨[], true, "", []⟩ (some "hi")).state.conversation ≠
      (⟨[], true, "", []⟩ : ChatState).conversation := by
  decide

/-- Claim C5 amended theorem: `handleSendMessage` has no `isGenerating`
guard.  Called while `isGenerating = true`, with ready backends and a
non-blank input, it proceeds and modifies the transcript, appending the new
user turn at the end of the previous transcript; the at-most-one-in-flight
restriction is enforced only by the UI, which swaps the send button for a
stop button while generating. -/
theorem no_reentrancy_guard (env : ChatEnv) (st : ChatState)
    (input : Option String)
    (hl : env.llamaReady = true) (hr : env.ragReady = true)
    (hgen : st.isGenerating = true)
    (hne : jsTrim (input.getD st.userInput) ≠ "") :
    (∃ rest, (handleSendMessage env st input).state.conversation =
      st.conversation ++ ⟨Role.user, input.getD st.userInput⟩ :: rest) ∧
    (handleSendMessage env st input).state.conversation ≠ st.conversation := by
  have _ := hgen
  have hmain : ∃ rest, (handleSendMessage env st input).state.conversation =
      st.conversation ++ ⟨Role.user, input.getD st.userInput⟩ :: rest := by
    cases hemb : env.embed with
    | error msg =>
      rw [handleSendMessage_embed_error env st input msg hl hr hne hemb]
      exact ⟨[⟨Role.assistant, ""⟩], by simp⟩
    | ok e =>
      cases hsearch : env.search with
      | error msg =>
        rw [handleSendMessage_search_error env st input e msg hl hr hne hemb hsearch]
        exact ⟨[⟨Role.assistant, ""⟩], by simp⟩
      | ok r =>
        cases hcomp : env.completion with
        | success tokens pps =>
          rw [handleSendMessage_success env st input e r tokens pps hl hr hne hemb
            hsearch hcomp]
          exact ⟨[⟨Role.assistant, streamContent "" "" tokens⟩], by simp⟩
        | failure tokens =>
          rw [handleSendMessage_failure env st input e r tokens hl hr hne hemb
            hsearch hcomp]
          exact ⟨[], by simp⟩
  obtain ⟨rest, hrest⟩ := hmain
  refine ⟨⟨rest, hrest⟩, ?_⟩
  intro heq
  rw [heq] at hrest
  have hlen := congrArg List.length hrest
  simp [List.length_append] at hlen

theorem no_reentrancy_guard_witness :
    ((⟨[], true, "", []⟩ : ChatState).isGenerating = true ∧
      jsTrim ((some "hi").getD (⟨[], true, "", []⟩ : ChatState).userInput) ≠ "") ∧
    ((∃ rest, (handleSendMessage
        ⟨true, true, Except.ok [1], Except.ok [], CompletionOutcome.success [] 0⟩
        ⟨[], true, "", []⟩ (some "hi")).state.conversation =
      (⟨[], true, "", []⟩ : ChatState).conversation ++
        ⟨Role.user, (some "hi").getD (⟨[], true, "", []⟩ : ChatState).userInput⟩ :: rest) ∧
     (handleSendMessage
        ⟨true, true, Except.ok [1], Except.ok [], CompletionOutcome.success [] 0⟩
        ⟨[], true, "", []⟩ (some "hi")).state.conversation ≠
      (⟨[], true, "", []⟩ : ChatState).conversation) :=
  ⟨⟨rfl, by decide⟩,
    no_reentrancy_guard
      ⟨true, true, Except.ok [1], Except.ok [], CompletionOutcome.success [] 0⟩
      ⟨[], true, "", []⟩ (some "hi") rfl rfl rfl (by decide)⟩

/-! ## Claim C9: the augmented prompt -/

/-- Claim C9 theorem: on a successful submission the backend receives the
full prior transcript plus a single augmented user turn (the template
applied to the retrieved documents and the original text) in place of the
raw user text, while the stored transcript keeps the original un-augmented
user message. -/
theorem augmented_prompt_sent (env : ChatEnv) (st : ChatState)
    (input : Option String) (e : List ℚ) (r : List SearchResult)
    (tokens : List String) (pps : ℚ)
    (hl : env.llamaReady = true) (hr : env.ragReady = true)
    (hne : jsTrim (input.getD st.userInput) ≠ "")
    (he : env.embed = Except.ok e) (hs : env.search = Except.ok r)
    (hc : env.completion = CompletionOutcome.success tokens pps) :
    (handleSendMessage env st input).sentToBackend =
      some (st.conversation ++
        [⟨Role.user, augmentedUserContent r (input.getD st.userInput)⟩]) ∧
    (handleSendMessage env st input).state.conversation =
      st.conversation ++ [⟨Role.user, input.getD st.userInput⟩,
        ⟨Role.assistant, streamContent "" "" tokens⟩] := by
  rw [handleSendMessage_success env st input e r tokens pps hl hr hne he hs hc]
  exact ⟨rfl, rfl⟩

theorem augmented_prompt_sent_witness :
    (jsTrim ((some "hello").getD (⟨[], false, "", []⟩ : ChatState).userInput) ≠ "" ∧
      (⟨true, true, Except.ok [1], Except.ok [⟨1, "doc", 1, none⟩],
        CompletionOutcome.success ["Hi"] 3⟩ : ChatEnv).search =
        Except.ok [⟨1, "doc", 1, none⟩]) ∧
    ((handleSendMessage
        ⟨true, true, Except.ok [1], Except.ok [⟨1, "doc", 1, none⟩],
          CompletionOutcome.success ["Hi"] 3⟩
        ⟨[], false, "", []⟩ (some "hello")).sentToBackend =
      some ((⟨[], false, "", []⟩ : ChatState).conversation ++
        [⟨Role.user, augmentedUserContent [⟨1, "doc", 1, none⟩]
          ((some "hello").getD (⟨[], false, "", []⟩ : ChatState).userInput)⟩]) ∧
     (handleSendMessage
        ⟨true, true, Except.ok [1], Except.ok [⟨1, "doc", 1, none⟩],
          CompletionOutcome.success ["Hi"] 3⟩
        ⟨[], false, "", []⟩ (some "hello")).state.conversation =
      (⟨[], false, "", []⟩ : ChatState).conversation ++
        [⟨Role.user, (some "hello").getD (⟨[], false, "", []⟩ : ChatState).userInput⟩,
         ⟨Role.assistant, streamContent "" "" ["Hi"]⟩]) :=
  ⟨⟨by decide, rfl⟩,
    augmented_prompt_sent
      ⟨true, true, Except.ok [1], Except.ok [⟨1, "doc", 1, none⟩],
        CompletionOutcome.success ["Hi"] 3⟩
      ⟨[], false, "", []⟩ (some "hello") [1] [⟨1, "doc", 1, none⟩] ["Hi"] 3
      rfl rfl (by decide) rfl rfl rfl⟩

end Equilibrium
